import Mathlib

/-!
# Eris orbital-mechanics core: shallow embedding

A shallow embedding of the orbital-mechanics update subsystem of the Eris
simulator (`src/state.rs`, `src/c_body.rs`, `src/utils.rs`), with theorems
checking the natural-language specification against it.

Numeric idealisation: the Rust code computes in `f32`; this development
models the scalar arithmetic exactly over `ℚ`.  Square roots are modelled by Mathlib's exact
rational `Rat.sqrt`, which agrees with the real square root whenever the
radicand is the square of a rational (the case in every concrete
configuration evaluated below).  A second, partiality-tracking model over
`Option ℚ` (`none` = non-finite: NaN or an infinity) captures the IEEE
propagation of division-by-zero through the update, for the
degenerate-distance claims.  A third model mirrors the inner loop with a
rounding to IEEE-754 binary32 precision after every scalar operation,
for the claims about exact `f32` equality.
-/

/-- 3-component vector over the idealised scalars, modelling
`cgmath::Vector3<f32>`. -/
structure Vec3 where
  x : ℚ
  y : ℚ
  z : ℚ
  deriving DecidableEq, Repr

namespace Vec3

/-- Componentwise addition (`cgmath` vector `+`). -/
def add (a b : Vec3) : Vec3 := ⟨a.x + b.x, a.y + b.y, a.z + b.z⟩

/-- Componentwise subtraction (`cgmath` vector `-`). -/
def sub (a b : Vec3) : Vec3 := ⟨a.x - b.x, a.y - b.y, a.z - b.z⟩

instance : Add Vec3 := ⟨add⟩
instance : Sub Vec3 := ⟨sub⟩
instance : Zero Vec3 := ⟨⟨0, 0, 0⟩⟩

/-- Scalar multiplication `v * s` (`cgmath` vector-by-scalar `Mul`). -/
def smul (v : Vec3) (s : ℚ) : Vec3 := ⟨v.x * s, v.y * s, v.z * s⟩

/-- Scalar division `v / s` (`cgmath` vector-by-scalar `Div`). -/
def sdiv (v : Vec3) (s : ℚ) : Vec3 := ⟨v.x / s, v.y / s, v.z / s⟩

/-- `cgmath::InnerSpace::magnitude2`: squared Euclidean length
`x*x + y*y + z*z`. -/
def magnitude2 (v : Vec3) : ℚ := v.x * v.x + v.y * v.y + v.z * v.z

/-- `cgmath::InnerSpace::magnitude`: `sqrt(magnitude2)`, modelled by the
exact rational square root `Rat.sqrt` (exact whenever the radicand is the
square of a rational). -/
def magnitude (v : Vec3) : ℚ := Rat.sqrt v.magnitude2

/-- `cgmath::InnerSpace::normalize`: `self * (1 / magnitude)`. -/
def normalize (v : Vec3) : Vec3 := v.smul (1 / v.magnitude)

end Vec3

/-- `utils.rs`: `pub const SIM_SCALE: f32 = 0.0001;`. -/
def SIM_SCALE : ℚ := 1 / 10 ^ 4

/-- `utils.rs`: `pub const SIM_SPEED: f32 = 800.0;` (unused by the update
path modelled here). -/
def SIM_SPEED : ℚ := 800

/-- `utils.rs`: `pub const G: f32 = 6.67e-11f32 * SIM_SCALE;`
(`6.67e-11 = 667 / 10^13`). -/
def G : ℚ := (667 / 10 ^ 13) * SIM_SCALE

/-- `c_body.rs` `CBody`: the physics state of one body.  `mass`, `radius`
and `velocity` are fields of the struct in `c_body.rs`; `position` is the
field read and mutated through `body.position` / `body.update(dt)` in
`state.rs` (the revision of `c_body.rs` in the tree predates it).  The
rendering-only fields (`mesh`, texture, uniform buffer, name) are
omitted. -/
structure CBody where
  mass : ℚ
  radius : ℚ
  position : Vec3
  velocity : Vec3
  deriving DecidableEq, Repr

namespace CBody

/-- `c_body.rs` `CBody::new`: stores the supplied fields directly, with no
validation of `mass` or `radius` (the `device`/mesh argument is
rendering-only and omitted; `position` forwarded as in the `state.rs`
call sites). -/
def new (mass radius : ℚ) (position velocity : Vec3) : CBody :=
  { mass := mass, radius := radius, position := position, velocity := velocity }

/-- Modelled from the spec: `standard_gravitational_parameter(body) =
G * body.mass` (§4.1).  The method is called from `state.rs` but its
definition is absent from the sources in the tree. -/
def standard_gravitational_parameter (b : CBody) : ℚ := G * b.mass

/-- Modelled from the spec: `escape_velocity(body) =
sqrt(2 * G * body.mass / body.radius)` (§4.1), i.e.
`sqrt(2 * standard_gravitational_parameter / radius)`.  Called from
`state.rs` rendering; definition absent from the tree. -/
def escape_velocity (b : CBody) : ℚ :=
  Rat.sqrt (2 * b.standard_gravitational_parameter / b.radius)

/-- Modelled from the spec: `circular_velocity_at_radius(body, r) =
sqrt(G * body.mass / r)` (§4.1); `calculate_velocity_at_radius` is called
at initialisation in `state.rs` but absent from the tree. -/
def calculate_velocity_at_radius (b : CBody) (r : ℚ) : ℚ :=
  Rat.sqrt (b.standard_gravitational_parameter / r)

/-- Modelled from the spec: the per-body integration step `CBody::update(dt)`
performs `position += velocity * dt` (§2, §4.3 step 2; the velocity was
already advanced by the tick driver).  The method is called from
`state.rs` but its definition is absent from the tree.  `dt` is the
elapsed time in seconds as an exact rational. -/
def update (b : CBody) (dt : ℚ) : CBody :=
  { b with position := b.position + b.velocity.smul dt }

end CBody

/-- The body of the inner loop of `State::update` (`state.rs:300-308`):
the acceleration contributed by `body2` on `body`,
```
let sqr_distance = (body2.position - body.position).magnitude2();
let force_direction = (body2.position - body.position).normalize();
let force = force_direction * body.standard_gravitational_parameter()
              * body2.mass / sqr_distance;
let acceleration = force / body.mass;
``` -/
def accelContribution (body body2 : CBody) : Vec3 :=
  let sqr_distance : ℚ := (body2.position - body.position).magnitude2
  let force_direction : Vec3 := (body2.position - body.position).normalize
  let force : Vec3 :=
    ((force_direction.smul body.standard_gravitational_parameter).smul body2.mass).sdiv
      sqr_distance
  force.sdiv body.mass

/-- The inner loop of `State::update`: for each `body2` among the other
bodies (in iteration order `before ++ after`), `body.velocity +=
acceleration` — note: the acceleration is added to the velocity directly,
with no `dt` factor (`state.rs:308`). -/
def accumulate (body : CBody) (others : List CBody) : CBody :=
  others.foldl
    (fun b b2 => { b with velocity := b.velocity + accelContribution b b2 }) body

/-- One iteration of the outer loop of `State::update` for one body:
accumulate the contributions of the other bodies into the velocity, then
`body.update(dt)` (`state.rs:300-312`). -/
def stepBody (body : CBody) (others : List CBody) (dt : ℚ) : CBody :=
  (accumulate body others).update dt

/-- The outer loop of `State::update` (`state.rs:293-319`): at index `i`
the slice is split into `before` (indices `< i`, already updated this
tick) and `after` (indices `> i`, still holding their start-of-tick
state); the current body reads `before.iter().chain(after.iter())`.
`done` is the updated prefix, `todo` the untouched suffix. -/
def updateLoop (done : List CBody) (todo : List CBody) (dt : ℚ) : List CBody :=
  match todo with
  | [] => done
  | body :: after => updateLoop (done ++ [stepBody body (done ++ after) dt]) after dt

/-- `State::update(dt)` restricted to its physics content: the pass over
`self.bodies` (GUI, camera and GPU-buffer writes in the same method are
rendering-only and omitted). -/
def State.update (bodies : List CBody) (dt : ℚ) : List CBody :=
  updateLoop [] bodies dt

/-- The specification's accumulate-then-apply net acceleration (§4.2
step 4): `acceleration_i = Σ_j a_ij` over the other bodies, accumulated
into a separate vector in the same iteration order as the code's inner
loop. -/
def netAcceleration (body : CBody) (others : List CBody) : Vec3 :=
  others.foldl (fun acc b2 => acc + accelContribution body b2) 0

/-- Replaying a whole session: fold `State.update` over a list of `dt`
values (one per tick, as supplied by the external event loop). -/
def simulate (bodies : List CBody) (dts : List ℚ) : List CBody :=
  dts.foldl State.update bodies

/-- The per-tick trace of a session: the body set after every tick of the
`dt` sequence (including the initial state). -/
def simTrace (bodies : List CBody) (dts : List ℚ) : List (List CBody) :=
  dts.scanl State.update bodies

/-! ## Partiality-tracking model for non-finite propagation

The `f32` arithmetic of the source produces NaN/infinity on division by
zero, which the exact model above cannot express (`ℚ` sets `x / 0 = 0`).
The following mirror of the update tracks finiteness: a scalar is
`some q` (finite, of exact value `q`) or `none` (non-finite: NaN or an
infinity).  Finite operations stay exact; any division by zero and any
operation on a non-finite operand yields `none`, mirroring that in IEEE
arithmetic a division by zero is non-finite and every `+`, `*`, `/`,
`sqrt` chain reached by the update maps non-finite operands to
non-finite results (no operation on the update's path can produce a
finite value from a non-finite operand). -/

/-- Finiteness-tracking scalar: `some q` is a finite value, `none` is
non-finite (NaN or ±infinity). -/
abbrev FQ : Type := Option ℚ

/-- Finite literal. -/
def FQ.fin (q : ℚ) : FQ := some q

/-- IEEE addition on tracked scalars. -/
def FQ.add : FQ → FQ → FQ
  | some a, some b => some (a + b)
  | _, _ => none

/-- IEEE subtraction on tracked scalars. -/
def FQ.sub : FQ → FQ → FQ
  | some a, some b => some (a - b)
  | _, _ => none

/-- IEEE multiplication on tracked scalars. -/
def FQ.mul : FQ → FQ → FQ
  | some a, some b => some (a * b)
  | _, _ => none

/-- IEEE division on tracked scalars: division by zero is non-finite. -/
def FQ.div : FQ → FQ → FQ
  | some a, some b => if b = 0 then none else some (a / b)
  | _, _ => none

/-- IEEE square root on tracked scalars: negative input is NaN. -/
def FQ.sqrt : FQ → FQ
  | some a => if a < 0 then none else some (Rat.sqrt a)
  | none => none

/-- Is the scalar finite? -/
def FQ.isFinite : FQ → Bool
  | some _ => true
  | none => false

/-- Vector of tracked scalars. -/
structure FVec3 where
  x : FQ
  y : FQ
  z : FQ
  deriving DecidableEq

namespace FVec3

/-- Componentwise tracked addition. -/
def add (a b : FVec3) : FVec3 := ⟨a.x.add b.x, a.y.add b.y, a.z.add b.z⟩

/-- Componentwise tracked subtraction. -/
def sub (a b : FVec3) : FVec3 := ⟨a.x.sub b.x, a.y.sub b.y, a.z.sub b.z⟩

/-- Tracked scalar multiplication. -/
def smul (v : FVec3) (s : FQ) : FVec3 := ⟨v.x.mul s, v.y.mul s, v.z.mul s⟩

/-- Tracked scalar division. -/
def sdiv (v : FVec3) (s : FQ) : FVec3 := ⟨v.x.div s, v.y.div s, v.z.div s⟩

/-- Tracked `magnitude2`. -/
def magnitude2 (v : FVec3) : FQ := ((v.x.mul v.x).add (v.y.mul v.y)).add (v.z.mul v.z)

/-- Tracked `magnitude`. -/
def magnitude (v : FVec3) : FQ := v.magnitude2.sqrt

/-- Tracked `normalize`: `self * (1 / magnitude)`. -/
def normalize (v : FVec3) : FVec3 := v.smul ((FQ.fin 1).div v.magnitude)

/-- All three components finite? -/
def isFinite (v : FVec3) : Bool := v.x.isFinite && v.y.isFinite && v.z.isFinite

end FVec3

/-- Body state in the finiteness-tracking model.  `mass` and `radius` are
constructor-supplied literals, always finite. -/
structure FBody where
  mass : ℚ
  radius : ℚ
  position : FVec3
  velocity : FVec3
  deriving DecidableEq

namespace FBody

/-- Tracked mirror of the inner-loop body of `State::update`. -/
def accelContributionF (body body2 : FBody) : FVec3 :=
  let sqr_distance : FQ := (body2.position.sub body.position).magnitude2
  let force_direction : FVec3 := (body2.position.sub body.position).normalize
  let force : FVec3 :=
    ((force_direction.smul (FQ.fin (G * body.mass))).smul (FQ.fin body2.mass)).sdiv
      sqr_distance
  force.sdiv (FQ.fin body.mass)

/-- Tracked mirror of the inner loop (`velocity += acceleration`). -/
def accumulateF (body : FBody) (others : List FBody) : FBody :=
  others.foldl
    (fun b b2 => { b with velocity := b.velocity.add (accelContributionF b b2) }) body

/-- Tracked mirror of `CBody::update(dt)`: `position += velocity * dt`. -/
def updateF (b : FBody) (dt : ℚ) : FBody :=
  { b with position := b.position.add (b.velocity.smul (FQ.fin dt)) }

/-- Tracked mirror of one outer-loop iteration. -/
def stepBodyF (body : FBody) (others : List FBody) (dt : ℚ) : FBody :=
  (accumulateF body others).updateF dt

/-- Position and velocity all finite? -/
def isFinite (b : FBody) : Bool := b.position.isFinite && b.velocity.isFinite

end FBody

/-- Tracked mirror of the outer loop of `State::update`. -/
def updateLoopF (done : List FBody) (todo : List FBody) (dt : ℚ) : List FBody :=
  match todo with
  | [] => done
  | body :: after => updateLoopF (done ++ [body.stepBodyF (done ++ after) dt]) after dt

/-- Tracked mirror of `State::update`. -/
def StateF.update (bodies : List FBody) (dt : ℚ) : List FBody :=
  updateLoopF [] bodies dt

/-- The specification's per-pair acceleration formula (§4.2 step 3, claim
wording): `a_ij = normalize(position_j - position_i) * G * mass_j /
dist2`, written directly from the spec for comparison with the code's
`accelContribution`. -/
def specContribution (body b2 : CBody) : Vec3 :=
  ((b2.position - body.position).normalize).smul
    (G * b2.mass / (b2.position - body.position).magnitude2)

/-- The specification's `acceleration_i = Σ_j a_ij` (§4.2 step 4) with the
spec's own per-pair formula, summed in the code's iteration order. -/
def specNetAcceleration (body : CBody) (others : List CBody) : Vec3 :=
  others.foldl (fun acc b2 => acc + specContribution body b2) 0

/-! ## f32-rounding model

The models above idealise the scalars as exact rationals.  The following
mirror of the inner loop instead rounds after every scalar operation,
exactly as IEEE-754 binary32 (`f32`) does in the normal range:
round-to-nearest, ties to even, 24-bit significand.  Overflow and
subnormals do not occur at the magnitudes exercised by the theorems
below, and `sqrt` is exercised only on perfect squares, where the
correctly rounded result is the exact one. -/

/-- Round a rational to the nearest IEEE-754 binary32 value
(round-to-nearest, ties to even, 24-bit significand, unbounded exponent
— faithful to `f32` in the normal range). -/
def roundF32 (q : ℚ) : ℚ :=
  if q = 0 then 0
  else
    let a : ℚ := |q|
    let e : ℤ := Int.log 2 a
    let m : ℚ := a * 2 ^ (23 - e)
    let n : ℤ :=
      if m - ⌊m⌋ < 1/2 then ⌊m⌋
      else if 1/2 < m - ⌊m⌋ then ⌊m⌋ + 1
      else if ⌊m⌋ % 2 = 0 then ⌊m⌋ else ⌊m⌋ + 1
    (if q < 0 then -1 else 1) * (n : ℚ) * 2 ^ (e - 23)

/-- `f32` addition: exact sum, then one rounding. -/
def add32 (x y : ℚ) : ℚ := roundF32 (x + y)

/-- `f32` subtraction. -/
def sub32 (x y : ℚ) : ℚ := roundF32 (x - y)

/-- `f32` multiplication. -/
def mul32 (x y : ℚ) : ℚ := roundF32 (x * y)

/-- `f32` division. -/
def div32 (x y : ℚ) : ℚ := roundF32 (x / y)

/-- `f32` square root (correctly rounded; `Rat.sqrt` is the exact root on
the perfect squares this development exercises it on). -/
def sqrt32 (q : ℚ) : ℚ := roundF32 (Rat.sqrt q)

/-- Componentwise `f32` vector addition. -/
def addV32 (a b : Vec3) : Vec3 := ⟨add32 a.x b.x, add32 a.y b.y, add32 a.z b.z⟩

/-- Componentwise `f32` vector subtraction. -/
def subV32 (a b : Vec3) : Vec3 := ⟨sub32 a.x b.x, sub32 a.y b.y, sub32 a.z b.z⟩

/-- `f32` vector-by-scalar multiplication. -/
def smulV32 (v : Vec3) (s : ℚ) : Vec3 := ⟨mul32 v.x s, mul32 v.y s, mul32 v.z s⟩

/-- `f32` vector-by-scalar division. -/
def sdivV32 (v : Vec3) (s : ℚ) : Vec3 := ⟨div32 v.x s, div32 v.y s, div32 v.z s⟩

/-- `f32` `magnitude2`: `x*x + y*y + z*z` with a rounding at each step. -/
def magnitude2V32 (v : Vec3) : ℚ :=
  add32 (add32 (mul32 v.x v.x) (mul32 v.y v.y)) (mul32 v.z v.z)

/-- `f32` `magnitude`. -/
def magnitudeV32 (v : Vec3) : ℚ := sqrt32 (magnitude2V32 v)

/-- `f32` `normalize`: `self * (1 / magnitude)`. -/
def normalizeV32 (v : Vec3) : Vec3 := smulV32 v (div32 1 (magnitudeV32 v))

/-- The `f32` value of the constant `G` of `utils.rs`: the two decimal
literals are rounded to `f32` when stored and their product is rounded
once more. -/
def G32 : ℚ := mul32 (roundF32 (667 / 10 ^ 13)) (roundF32 (1 / 10 ^ 4))

/-- The inner-loop contribution of `state.rs:300-308` with every scalar
operation in `f32`. -/
def accelContribution32 (body body2 : CBody) : Vec3 :=
  let sqr_distance : ℚ := magnitude2V32 (subV32 body2.position body.position)
  let force_direction : Vec3 := normalizeV32 (subV32 body2.position body.position)
  let force : Vec3 :=
    sdivV32 (smulV32 (smulV32 force_direction (mul32 G32 body.mass)) body2.mass)
      sqr_distance
  sdivV32 force body.mass

/-- The code's accumulation strategy in `f32`: fold each contribution
into the velocity as it is computed, one pair at a time. -/
def accumulate32 (body : CBody) (others : List CBody) : CBody :=
  others.foldl
    (fun b b2 => { b with velocity := addV32 b.velocity (accelContribution32 b b2) }) body

/-- The spec's accumulation strategy in `f32`: sum the contributions in
the same order into a separate vector (to be added to the velocity
once). -/
def netAcceleration32 (body : CBody) (others : List CBody) : Vec3 :=
  others.foldl (fun acc b2 => addV32 acc (accelContribution32 body b2)) ⟨0, 0, 0⟩

/-! ## Helper lemmas -/

namespace Vec3

theorem add_def (a b : Vec3) : a + b = ⟨a.x + b.x, a.y + b.y, a.z + b.z⟩ := rfl

theorem sub_def (a b : Vec3) : a - b = ⟨a.x - b.x, a.y - b.y, a.z - b.z⟩ := rfl

theorem zero_def : (0 : Vec3) = ⟨0, 0, 0⟩ := rfl

theorem ext_iff {a b : Vec3} : a = b ↔ a.x = b.x ∧ a.y = b.y ∧ a.z = b.z := by
  cases a; cases b; simp [mk.injEq]

protected theorem add_assoc (a b c : Vec3) : a + b + c = a + (b + c) := by
  simp [add_def, ext_iff, add_assoc]

protected theorem zero_add (a : Vec3) : 0 + a = a := by
  simp [add_def, zero_def, ext_iff]

protected theorem add_zero (a : Vec3) : a + 0 = a := by
  simp [add_def, zero_def, ext_iff]

protected theorem zero_smul (s : ℚ) : (0 : Vec3).smul s = 0 := by
  simp [smul, zero_def]

theorem smul_mk_zero (s : ℚ) : Vec3.smul ⟨0, 0, 0⟩ s = (⟨0, 0, 0⟩ : Vec3) := by
  simp [smul]

theorem add_mk_zero (a : Vec3) : a + ⟨0, 0, 0⟩ = a := by
  simp [add_def, ext_iff]

end Vec3

/-- The per-pair contribution reads only the masses and positions; the
running velocity of the fold is irrelevant to it. -/
theorem accelContribution_velocity_irrel (m r : ℚ) (p v w : Vec3) (b2 : CBody) :
    accelContribution ⟨m, r, p, v⟩ b2 = accelContribution ⟨m, r, p, w⟩ b2 := rfl

/-- Shifting the start value out of the `netAcceleration`-style fold. -/
theorem foldl_add_shift (f : CBody → Vec3) (l : List CBody) (a : Vec3) :
    l.foldl (fun acc b2 => acc + f b2) a = a + l.foldl (fun acc b2 => acc + f b2) 0 := by
  induction l generalizing a with
  | nil => simp [Vec3.add_zero]
  | cons b2 rest ih =>
    simp only [List.foldl_cons]
    rw [ih (a + f b2), ih (0 + f b2), Vec3.zero_add, Vec3.add_assoc]

theorem netAcceleration_nil (body : CBody) : netAcceleration body [] = 0 := rfl

theorem netAcceleration_cons (body b2 : CBody) (rest : List CBody) :
    netAcceleration body (b2 :: rest) =
      accelContribution body b2 + netAcceleration body rest := by
  simp only [netAcceleration, List.foldl_cons]
  rw [foldl_add_shift, Vec3.zero_add]

/-- The net-acceleration sum reads only the masses and positions of its
arguments; the accumulating body's velocity is irrelevant to it. -/
theorem netAcceleration_velocity_irrel (m r : ℚ) (p v w : Vec3) (others : List CBody) :
    netAcceleration ⟨m, r, p, v⟩ others = netAcceleration ⟨m, r, p, w⟩ others := rfl

/-- The inner loop folds each contribution into the velocity; its effect
is the body with `velocity + netAcceleration` and all other fields
unchanged. -/
theorem accumulate_eq (body : CBody) (others : List CBody) :
    accumulate body others =
      { body with velocity := body.velocity + netAcceleration body others } := by
  obtain ⟨m, r, p, v⟩ := body
  induction others generalizing v with
  | nil => simp [accumulate, netAcceleration_nil, Vec3.add_zero]
  | cons b2 rest ih =>
    show accumulate ⟨m, r, p, v + accelContribution ⟨m, r, p, v⟩ b2⟩ rest = _
    rw [ih (v + accelContribution ⟨m, r, p, v⟩ b2)]
    show (⟨m, r, p, (v + accelContribution ⟨m, r, p, v⟩ b2) +
        netAcceleration ⟨m, r, p, v⟩ rest⟩ : CBody) = _
    rw [netAcceleration_cons, Vec3.add_assoc]

/-- One outer-loop iteration in closed form: velocity gains the net
acceleration (no `dt` factor), and only then does the position integrate
with the updated velocity. -/
theorem stepBody_eq (body : CBody) (others : List CBody) (dt : ℚ) :
    stepBody body others dt =
      { body with
          velocity := body.velocity + netAcceleration body others,
          position := body.position +
            (body.velocity + netAcceleration body others).smul dt } := by
  simp [stepBody, CBody.update, accumulate_eq]

/-- In exact arithmetic the `mass_i` factor introduced through
`standard_gravitational_parameter` cancels against the final division by
`mass_i`, leaving the spec's formula. -/
theorem accelContribution_eq_spec (body b2 : CBody) (h : body.mass ≠ 0) :
    accelContribution body b2 = specContribution body b2 := by
  unfold accelContribution specContribution
  simp only [Vec3.smul, Vec3.sdiv, CBody.standard_gravitational_parameter, Vec3.ext_iff]
  rcases eq_or_ne ((b2.position - body.position).magnitude2) 0 with h2 | h2 <;>
    refine ⟨?_, ?_, ?_⟩ <;>
    · first
      | (rw [h2]; simp)
      | (field_simp; ring)

theorem netAcceleration_eq_spec (body : CBody) (others : List CBody) (h : body.mass ≠ 0) :
    netAcceleration body others = specNetAcceleration body others := by
  induction others with
  | nil => rfl
  | cons b2 rest ih =>
    rw [netAcceleration_cons]
    have spec_cons : specNetAcceleration body (b2 :: rest) =
        specContribution body b2 + specNetAcceleration body rest := by
      simp only [specNetAcceleration, List.foldl_cons]
      rw [show (fun acc b2 => acc + specContribution body b2) =
            (fun acc b2 => acc + (fun x => specContribution body x) b2) from rfl]
      rw [foldl_add_shift (fun x => specContribution body x), Vec3.zero_add]
    rw [spec_cons, ih, accelContribution_eq_spec body b2 h]

theorem stepBody_mass (body : CBody) (others : List CBody) (dt : ℚ) :
    (stepBody body others dt).mass = body.mass := by rw [stepBody_eq]

theorem stepBody_radius (body : CBody) (others : List CBody) (dt : ℚ) :
    (stepBody body others dt).radius = body.radius := by rw [stepBody_eq]

/-- The outer loop rewrites velocities and positions only: the masses come
out unchanged, in order. -/
theorem updateLoop_map_mass (todo : List CBody) : ∀ (done : List CBody) (dt : ℚ),
    (updateLoop done todo dt).map CBody.mass =
      done.map CBody.mass ++ todo.map CBody.mass := by
  induction todo with
  | nil => intro done dt; simp [updateLoop]
  | cons body after ih =>
    intro done dt
    rw [updateLoop, ih]
    simp [stepBody_mass]

theorem updateLoop_map_radius (todo : List CBody) : ∀ (done : List CBody) (dt : ℚ),
    (updateLoop done todo dt).map CBody.radius =
      done.map CBody.radius ++ todo.map CBody.radius := by
  induction todo with
  | nil => intro done dt; simp [updateLoop]
  | cons body after ih =>
    intro done dt
    rw [updateLoop, ih]
    simp [stepBody_radius]

theorem updateLoop_length (todo : List CBody) : ∀ (done : List CBody) (dt : ℚ),
    (updateLoop done todo dt).length = done.length + todo.length := by
  induction todo with
  | nil => intro done dt; simp [updateLoop]
  | cons body after ih =>
    intro done dt
    rw [updateLoop, ih]
    simp
    omega

/-- A single body sees an empty `others` slice, so a tick is just the
position integration. -/
theorem update_singleton (b : CBody) (dt : ℚ) :
    State.update [b] dt = [{ b with position := b.position + b.velocity.smul dt }] := by
  rw [State.update, updateLoop, updateLoop]
  simp only [List.nil_append, List.append_nil]
  rw [show stepBody b [] dt = (accumulate b []).update dt from rfl]
  rw [show accumulate b [] = b from rfl]
  rfl

theorem rat_sqrt_zero : Rat.sqrt 0 = 0 := by
  rw [show (0 : ℚ) = 0 * 0 by norm_num, Rat.sqrt_eq]; norm_num

theorem rat_sqrt_one : Rat.sqrt 1 = 1 := by
  rw [show (1 : ℚ) = 1 * 1 by norm_num, Rat.sqrt_eq]; norm_num

theorem rat_sqrt_four : Rat.sqrt 4 = 2 := by
  rw [show (4 : ℚ) = 2 * 2 by norm_num, Rat.sqrt_eq]; norm_num

theorem rat_sqrt_twenty_five : Rat.sqrt 25 = 5 := by
  rw [show (25 : ℚ) = 5 * 5 by norm_num, Rat.sqrt_eq]; norm_num

/-! ## Claim theorems -/

/-- Claim C10 (amended): in exact arithmetic, folding each pairwise
contribution into the velocity one pair at a time, in iteration order
(the code's `accumulate`), yields the same final velocity as first
accumulating the net acceleration in the same order into a separate
vector (`netAcceleration`) and then adding it to the velocity once.
Under `f32` arithmetic the two strategies are not exactly equal in
general, because `f32` addition is not associative — see the
counterexample in the `f32`-rounding model. -/
theorem C10_theorem (body : CBody) (others : List CBody) :
    (accumulate body others).velocity = body.velocity + netAcceleration body others := by
  rw [accumulate_eq]

/-- Claim C8: the tick update is deterministic — two runs from equal
initial body sets fed the same `dt` sequence produce identical body
states after every tick.  The embedded update is a pure function of the
body list and `dt`, which this theorem records. -/
theorem C8_theorem (bodies₁ bodies₂ : List CBody) (dts : List ℚ)
    (h : bodies₁ = bodies₂) :
    simTrace bodies₁ dts = simTrace bodies₂ dts := by rw [h]

theorem C8_witness :
    [CBody.new 1 1 ⟨0, 0, 0⟩ ⟨0, 0, 0⟩] = [CBody.new 1 1 ⟨0, 0, 0⟩ ⟨0, 0, 0⟩] ∧
    simTrace [CBody.new 1 1 ⟨0, 0, 0⟩ ⟨0, 0, 0⟩] [1, 2] =
      simTrace [CBody.new 1 1 ⟨0, 0, 0⟩ ⟨0, 0, 0⟩] [1, 2] :=
  ⟨rfl, C8_theorem _ _ [1, 2] rfl⟩

/-- Claim C4: the acceleration contribution imposed on a body is
unchanged when the body's own mass is varied between any two positive
values — the `mass_i` introduced through
`standard_gravitational_parameter` cancels exactly against the final
division by `mass_i` in the exact arithmetic of the embedding. -/
theorem C4_theorem (body b2 : CBody) (m m' : ℚ) (hm : 0 < m) (hm' : 0 < m') :
    accelContribution { body with mass := m } b2 =
      accelContribution { body with mass := m' } b2 := by
  rw [accelContribution_eq_spec _ _ (show ({ body with mass := m } : CBody).mass ≠ 0 from hm.ne'),
    accelContribution_eq_spec _ _ (show ({ body with mass := m' } : CBody).mass ≠ 0 from hm'.ne')]
  rfl

theorem C4_witness :
    (0 : ℚ) < 1 ∧ (0 : ℚ) < 2 ∧
    accelContribution { CBody.new 5 5 ⟨0, 0, 0⟩ ⟨0, 0, 0⟩ with mass := 1 }
        (CBody.new 7 7 ⟨1, 0, 0⟩ ⟨0, 0, 0⟩) =
      accelContribution { CBody.new 5 5 ⟨0, 0, 0⟩ ⟨0, 0, 0⟩ with mass := 2 }
        (CBody.new 7 7 ⟨1, 0, 0⟩ ⟨0, 0, 0⟩) :=
  ⟨by simp, by simp,
    C4_theorem (CBody.new 5 5 ⟨0, 0, 0⟩ ⟨0, 0, 0⟩) (CBody.new 7 7 ⟨1, 0, 0⟩ ⟨0, 0, 0⟩)
      1 2 (by simp) (by simp)⟩

/-- Claim C3: for distinct bodies at distinct positions the contribution
computed by the inner loop equals the spec's
`normalize(p_j - p_i) * G * m_j / dist2`, and the velocity change of a
body over the inner loop is the sum of these contributions over the
other bodies. -/
theorem C3_theorem (body b2 : CBody) (others : List CBody)
    (hm : body.mass ≠ 0) (_hpos : b2.position ≠ body.position) :
    accelContribution body b2 = specContribution body b2 ∧
    (accumulate body others).velocity = body.velocity + specNetAcceleration body others :=
  ⟨accelContribution_eq_spec body b2 hm, by
    rw [accumulate_eq, netAcceleration_eq_spec body others hm]⟩

theorem C3_witness :
    (CBody.new 1 1 ⟨0, 0, 0⟩ ⟨0, 0, 0⟩).mass ≠ 0 ∧
    (CBody.new 7 7 ⟨1, 0, 0⟩ ⟨0, 0, 0⟩).position ≠
      (CBody.new 1 1 ⟨0, 0, 0⟩ ⟨0, 0, 0⟩).position ∧
    (accelContribution (CBody.new 1 1 ⟨0, 0, 0⟩ ⟨0, 0, 0⟩)
          (CBody.new 7 7 ⟨1, 0, 0⟩ ⟨0, 0, 0⟩) =
        specContribution (CBody.new 1 1 ⟨0, 0, 0⟩ ⟨0, 0, 0⟩)
          (CBody.new 7 7 ⟨1, 0, 0⟩ ⟨0, 0, 0⟩) ∧
      (accumulate (CBody.new 1 1 ⟨0, 0, 0⟩ ⟨0, 0, 0⟩)
            [CBody.new 7 7 ⟨1, 0, 0⟩ ⟨0, 0, 0⟩]).velocity =
        (CBody.new 1 1 ⟨0, 0, 0⟩ ⟨0, 0, 0⟩).velocity +
          specNetAcceleration (CBody.new 1 1 ⟨0, 0, 0⟩ ⟨0, 0, 0⟩)
            [CBody.new 7 7 ⟨1, 0, 0⟩ ⟨0, 0, 0⟩]) :=
  ⟨by simp [CBody.new], by simp [CBody.new, Vec3.ext_iff],
    C3_theorem _ _ _ (by simp [CBody.new]) (by simp [CBody.new, Vec3.ext_iff])⟩

/-- Claim C1 (amended): within one tick the driver adds the accumulated
net acceleration to the velocity directly — with no `dt` factor, so the
velocity change is independent of `dt` — and only then integrates
`position += velocity * dt` with the updated velocity. -/
theorem C1_theorem (body : CBody) (others : List CBody) (dt dt' : ℚ) :
    (stepBody body others dt).velocity = body.velocity + netAcceleration body others ∧
    (stepBody body others dt).velocity = (stepBody body others dt').velocity ∧
    (stepBody body others dt).position =
      body.position + (body.velocity + netAcceleration body others).smul dt := by
  refine ⟨?_, ?_, ?_⟩ <;> simp [stepBody_eq]

/-- Claim C6 (counterexample): `CBody::new` performs no validation — a
body constructed with `mass = -1` and `radius = -1` is accepted and
carries those non-positive values, so construction does not fail fast. -/
theorem C6_counterexample :
    (CBody.new (-1) (-1) ⟨0, 0, 0⟩ ⟨0, 0, 0⟩).mass = -1 ∧
    (CBody.new (-1) (-1) ⟨0, 0, 0⟩ ⟨0, 0, 0⟩).radius = -1 ∧
    ¬ 0 < (CBody.new (-1) (-1) ⟨0, 0, 0⟩ ⟨0, 0, 0⟩).mass ∧
    ¬ 0 < (CBody.new (-1) (-1) ⟨0, 0, 0⟩ ⟨0, 0, 0⟩).radius := by
  refine ⟨rfl, rfl, ?_, ?_⟩ <;> norm_num [CBody.new]

/-- Claim C6 (amended): construction stores `mass` and `radius` unchecked
(no fail-fast validation), but no tick update ever modifies any body's
mass or radius, and the number of bodies is preserved by every tick. -/
theorem C6_theorem (bodies : List CBody) (dt : ℚ) :
    (State.update bodies dt).map CBody.mass = bodies.map CBody.mass ∧
    (State.update bodies dt).map CBody.radius = bodies.map CBody.radius ∧
    (State.update bodies dt).length = bodies.length ∧
    ∀ (m r : ℚ) (p v : Vec3), (CBody.new m r p v).mass = m ∧ (CBody.new m r p v).radius = r := by
  refine ⟨?_, ?_, ?_, fun m r p v => ⟨rfl, rfl⟩⟩ <;>
    simp [State.update, updateLoop_map_mass, updateLoop_map_radius, updateLoop_length]

/-- Claim C7 (counterexample): a simulation with exactly one body whose
initial velocity is nonzero does not keep its position at the
initialized value — after one tick with `dt = 1` the position has moved
by `velocity * dt`. -/
theorem C7_counterexample :
    (State.update [CBody.new 1 1 ⟨0, 0, 0⟩ ⟨1, 0, 0⟩] 1).map CBody.position ≠
      [(⟨0, 0, 0⟩ : Vec3)] := by
  rw [update_singleton]
  simp [CBody.new, Vec3.add_def, Vec3.smul, Vec3.ext_iff]

/-- Claim C7 (amended): with exactly one body the net acceleration is
zero every tick and the velocity never changes; the position stays at
its initialized value over any `dt` sequence provided the initial
velocity is zero (otherwise it drifts by `velocity * dt` each tick). -/
theorem C7_theorem (b : CBody) (dts : List ℚ) :
    netAcceleration b [] = 0 ∧
    (simulate [b] dts).map CBody.velocity = [b.velocity] ∧
    (b.velocity = ⟨0, 0, 0⟩ → simulate [b] dts = [b]) := by
  refine ⟨rfl, ?_, ?_⟩
  · induction dts generalizing b with
    | nil => simp [simulate]
    | cons dt rest ih =>
      simp only [simulate, List.foldl_cons, update_singleton]
      simpa using ih { b with position := b.position + b.velocity.smul dt }
  · intro h
    induction dts generalizing b with
    | nil => simp [simulate]
    | cons dt rest ih =>
      simp only [simulate, List.foldl_cons, update_singleton]
      rw [h, Vec3.smul_mk_zero, Vec3.add_mk_zero, ← h]
      exact ih b h

theorem C7_witness :
    netAcceleration (CBody.new 1 1 ⟨2, 0, 0⟩ ⟨0, 0, 0⟩) [] = 0 ∧
    (simulate [CBody.new 1 1 ⟨2, 0, 0⟩ ⟨0, 0, 0⟩] [1, 2]).map CBody.velocity =
      [(⟨0, 0, 0⟩ : Vec3)] ∧
    simulate [CBody.new 1 1 ⟨2, 0, 0⟩ ⟨0, 0, 0⟩] [1, 2] =
      [CBody.new 1 1 ⟨2, 0, 0⟩ ⟨0, 0, 0⟩] := by
  obtain ⟨h1, h2, h3⟩ := C7_theorem (CBody.new 1 1 ⟨2, 0, 0⟩ ⟨0, 0, 0⟩) [1, 2]
  exact ⟨h1, h2, h3 rfl⟩

/-- Claim C1 (counterexample): with `dt = 2` the first body's velocity
after one tick is `velocity + acceleration`, not
`velocity + acceleration * dt`: the driver never scales the accumulated
acceleration by the elapsed time. -/
theorem C1_counterexample :
    ((State.update [CBody.new 1 1 ⟨0, 0, 0⟩ ⟨0, 0, 0⟩,
          CBody.new (300000000000000000/667) 1 ⟨1, 0, 0⟩ ⟨0, 0, 0⟩] 2).head?).map
        CBody.velocity ≠
      some ((CBody.new 1 1 ⟨0, 0, 0⟩ ⟨0, 0, 0⟩).velocity +
        (netAcceleration (CBody.new 1 1 ⟨0, 0, 0⟩ ⟨0, 0, 0⟩)
            [CBody.new (300000000000000000/667) 1 ⟨1, 0, 0⟩ ⟨0, 0, 0⟩]).smul 2) := by
  simp only [CBody.new]
  have hnet : netAcceleration (⟨1, 1, ⟨0, 0, 0⟩, ⟨0, 0, 0⟩⟩ : CBody)
      [⟨300000000000000000/667, 1, ⟨1, 0, 0⟩, ⟨0, 0, 0⟩⟩] = ⟨3, 0, 0⟩ := by
    rw [netAcceleration_cons, netAcceleration_nil, Vec3.add_zero]
    simp only [accelContribution, Vec3.sub_def, Vec3.magnitude2, Vec3.normalize,
      Vec3.magnitude, Vec3.smul, Vec3.sdiv, CBody.standard_gravitational_parameter,
      G, SIM_SCALE]
    norm_num [rat_sqrt_one, Vec3.mk.injEq]
  have h1 : stepBody (⟨1, 1, ⟨0, 0, 0⟩, ⟨0, 0, 0⟩⟩ : CBody)
      [⟨300000000000000000/667, 1, ⟨1, 0, 0⟩, ⟨0, 0, 0⟩⟩] 2 =
      ⟨1, 1, ⟨6, 0, 0⟩, ⟨3, 0, 0⟩⟩ := by
    rw [stepBody_eq, hnet]
    simp [Vec3.add_def, Vec3.smul, Vec3.ext_iff]
    norm_num
  rw [State.update, updateLoop]
  simp only [List.nil_append]
  rw [h1, hnet]
  rw [updateLoop]
  simp only [List.append_nil]
  rw [updateLoop]
  simp [Vec3.add_def, Vec3.smul, Vec3.ext_iff]

/-- Evaluation of one tick on the pair `(A, B)` of equal-mass bodies at
`x = 0` and `x = 1` (mass chosen so that `G * mass = 3` exactly),
processed in the order `[A, B]`. -/
theorem c2_run_forward :
    State.update [⟨300000000000000000/667, 1, ⟨0, 0, 0⟩, ⟨0, 0, 0⟩⟩,
        ⟨300000000000000000/667, 1, ⟨1, 0, 0⟩, ⟨0, 0, 0⟩⟩] 1 =
      [⟨300000000000000000/667, 1, ⟨3, 0, 0⟩, ⟨3, 0, 0⟩⟩,
        ⟨300000000000000000/667, 1, ⟨7/4, 0, 0⟩, ⟨3/4, 0, 0⟩⟩] := by
  have h1 : stepBody (⟨300000000000000000/667, 1, ⟨0, 0, 0⟩, ⟨0, 0, 0⟩⟩ : CBody)
      [⟨300000000000000000/667, 1, ⟨1, 0, 0⟩, ⟨0, 0, 0⟩⟩] 1 =
      ⟨300000000000000000/667, 1, ⟨3, 0, 0⟩, ⟨3, 0, 0⟩⟩ := by
    rw [stepBody_eq, netAcceleration_cons, netAcceleration_nil, Vec3.add_zero]
    simp only [accelContribution, Vec3.sub_def, Vec3.magnitude2, Vec3.normalize,
      Vec3.magnitude, Vec3.smul, Vec3.sdiv, CBody.standard_gravitational_parameter,
      G, SIM_SCALE]
    norm_num [rat_sqrt_one, Vec3.add_def, Vec3.smul, CBody.mk.injEq, Vec3.mk.injEq]
  have h2 : stepBody (⟨300000000000000000/667, 1, ⟨1, 0, 0⟩, ⟨0, 0, 0⟩⟩ : CBody)
      [⟨300000000000000000/667, 1, ⟨3, 0, 0⟩, ⟨3, 0, 0⟩⟩] 1 =
      ⟨300000000000000000/667, 1, ⟨7/4, 0, 0⟩, ⟨3/4, 0, 0⟩⟩ := by
    rw [stepBody_eq, netAcceleration_cons, netAcceleration_nil, Vec3.add_zero]
    simp only [accelContribution, Vec3.sub_def, Vec3.magnitude2, Vec3.normalize,
      Vec3.magnitude, Vec3.smul, Vec3.sdiv, CBody.standard_gravitational_parameter,
      G, SIM_SCALE]
    norm_num [rat_sqrt_four, Vec3.add_def, Vec3.smul, CBody.mk.injEq, Vec3.mk.injEq]
  rw [State.update, updateLoop]
  simp only [List.nil_append]
  rw [h1, updateLoop]
  simp only [List.append_nil]
  rw [h2, updateLoop]
  rfl

/-- Evaluation of the same tick with the same two bodies processed in the
reversed order `[B, A]`. -/
theorem c2_run_reversed :
    State.update [⟨300000000000000000/667, 1, ⟨1, 0, 0⟩, ⟨0, 0, 0⟩⟩,
        ⟨300000000000000000/667, 1, ⟨0, 0, 0⟩, ⟨0, 0, 0⟩⟩] 1 =
      [⟨300000000000000000/667, 1, ⟨-2, 0, 0⟩, ⟨-3, 0, 0⟩⟩,
        ⟨300000000000000000/667, 1, ⟨-3/4, 0, 0⟩, ⟨-3/4, 0, 0⟩⟩] := by
  have h1 : stepBody (⟨300000000000000000/667, 1, ⟨1, 0, 0⟩, ⟨0, 0, 0⟩⟩ : CBody)
      [⟨300000000000000000/667, 1, ⟨0, 0, 0⟩, ⟨0, 0, 0⟩⟩] 1 =
      ⟨300000000000000000/667, 1, ⟨-2, 0, 0⟩, ⟨-3, 0, 0⟩⟩ := by
    rw [stepBody_eq, netAcceleration_cons, netAcceleration_nil, Vec3.add_zero]
    simp only [accelContribution, Vec3.sub_def, Vec3.magnitude2, Vec3.normalize,
      Vec3.magnitude, Vec3.smul, Vec3.sdiv, CBody.standard_gravitational_parameter,
      G, SIM_SCALE]
    norm_num [rat_sqrt_one, Vec3.add_def, Vec3.smul, CBody.mk.injEq, Vec3.mk.injEq]
  have h2 : stepBody (⟨300000000000000000/667, 1, ⟨0, 0, 0⟩, ⟨0, 0, 0⟩⟩ : CBody)
      [⟨300000000000000000/667, 1, ⟨-2, 0, 0⟩, ⟨-3, 0, 0⟩⟩] 1 =
      ⟨300000000000000000/667, 1, ⟨-3/4, 0, 0⟩, ⟨-3/4, 0, 0⟩⟩ := by
    rw [stepBody_eq, netAcceleration_cons, netAcceleration_nil, Vec3.add_zero]
    simp only [accelContribution, Vec3.sub_def, Vec3.magnitude2, Vec3.normalize,
      Vec3.magnitude, Vec3.smul, Vec3.sdiv, CBody.standard_gravitational_parameter,
      G, SIM_SCALE]
    norm_num [rat_sqrt_four, Vec3.add_def, Vec3.smul, CBody.mk.injEq, Vec3.mk.injEq]
  rw [State.update, updateLoop]
  simp only [List.nil_append]
  rw [h1, updateLoop]
  simp only [List.append_nil]
  rw [h2, updateLoop]
  rfl

/-- Claim C2 (counterexample): the same body — initial state
`(mass, 1, (0,0,0), (0,0,0))`, first in the list in one run, second in
the other — ends the tick with velocity `(3,0,0)` when processed first
and `(-3/4,0,0)` when processed second: the tick result is not computed
from a start-of-tick snapshot and depends on the iteration order. -/
theorem C2_counterexample :
    ((State.update [⟨300000000000000000/667, 1, ⟨0, 0, 0⟩, ⟨0, 0, 0⟩⟩,
          ⟨300000000000000000/667, 1, ⟨1, 0, 0⟩, ⟨0, 0, 0⟩⟩] 1)[0]?).map CBody.velocity ≠
      ((State.update [⟨300000000000000000/667, 1, ⟨1, 0, 0⟩, ⟨0, 0, 0⟩⟩,
          ⟨300000000000000000/667, 1, ⟨0, 0, 0⟩, ⟨0, 0, 0⟩⟩] 1)[1]?).map CBody.velocity := by
  rw [c2_run_forward, c2_run_reversed]
  simp [Vec3.ext_iff]
  norm_num

/-- Claim C2 (amended): one full tick is not independent of the body
iteration order — there are permutations of the same body set, with the
same body at positions `i` and `j` of the two orders, for which that
body's resulting velocity differs between the two runs (bodies earlier
in the order are integrated before later bodies read their state). -/
theorem C2_theorem :
    ∃ (l l' : List CBody) (i j : ℕ) (dt : ℚ),
      l.Perm l' ∧ l[i]? = l'[j]? ∧
      ((State.update l dt)[i]?).map CBody.velocity ≠
        ((State.update l' dt)[j]?).map CBody.velocity := by
  refine ⟨[⟨300000000000000000/667, 1, ⟨0, 0, 0⟩, ⟨0, 0, 0⟩⟩,
      ⟨300000000000000000/667, 1, ⟨1, 0, 0⟩, ⟨0, 0, 0⟩⟩],
    [⟨300000000000000000/667, 1, ⟨1, 0, 0⟩, ⟨0, 0, 0⟩⟩,
      ⟨300000000000000000/667, 1, ⟨0, 0, 0⟩, ⟨0, 0, 0⟩⟩],
    0, 1, 1, List.Perm.swap _ _ _, rfl, ?_⟩
  rw [c2_run_forward, c2_run_reversed]
  simp [Vec3.ext_iff]
  norm_num

/-- Exact evaluation of the square root the code's constants produce for
the claim's test body: `2 * G * 10^6 / 10 = 667/500000000000`. -/
theorem c9_sqrt_code : Rat.sqrt (667/500000000000) = 25/707106 := by
  rw [show (667/500000000000 : ℚ) = ((667:ℤ) : ℚ) / ((500000000000:ℤ) : ℚ) by norm_num]
  have hden : ((((667:ℤ) : ℚ) / ((500000000000:ℤ) : ℚ)).den) = 500000000000 := by
    have h2 := Rat.den_div_eq_of_coprime (show (0:ℤ) < 500000000000 by norm_num)
      (show Nat.Coprime (667:ℤ).natAbs (500000000000:ℤ).natAbs by norm_num)
    exact_mod_cast h2
  rw [Rat.sqrt]
  rw [Rat.num_div_eq_of_coprime (by norm_num) (by norm_num), hden]
  rw [show Int.sqrt 667 = 25 by norm_num, show Nat.sqrt 500000000000 = 707106 by norm_num]
  rw [Rat.mkRat_eq_divInt, Rat.divInt_eq_div]
  norm_num

/-- Exact evaluation of the square root the claim expects under its
assumed `G = 1.0e-7`: the radicand would be `1/50`. -/
theorem c9_sqrt_claim : Rat.sqrt (1/50) = 1/7 := by
  rw [show (1/50 : ℚ) = ((1:ℤ) : ℚ) / ((50:ℤ) : ℚ) by norm_num]
  have hden : ((((1:ℤ) : ℚ) / ((50:ℤ) : ℚ)).den) = 50 := by
    have h2 := Rat.den_div_eq_of_coprime (show (0:ℤ) < 50 by norm_num)
      (show Nat.Coprime (1:ℤ).natAbs (50:ℤ).natAbs by norm_num)
    exact_mod_cast h2
  rw [Rat.sqrt]
  rw [Rat.num_div_eq_of_coprime (by norm_num) (by norm_num), hden]
  rw [show Int.sqrt 1 = 1 by norm_num, show Nat.sqrt 50 = 7 by norm_num]
  rw [Rat.mkRat_eq_divInt, Rat.divInt_eq_div]
  norm_num

/-- The radicand `escape_velocity` actually computes for the claim's test
body `mass = 10^6`, `radius = 10` under the code's `G`. -/
theorem c9_arg :
    (2 * (CBody.new 1000000 10 ⟨0, 0, 0⟩ ⟨0, 0, 0⟩).standard_gravitational_parameter /
        (CBody.new 1000000 10 ⟨0, 0, 0⟩ ⟨0, 0, 0⟩).radius : ℚ) = 667/500000000000 := by
  simp only [CBody.new, CBody.standard_gravitational_parameter, G, SIM_SCALE]
  norm_num

/-- Claim C9 (counterexample): `utils.rs` sets
`G = 6.67e-11 * SIM_SCALE = 6.67e-15`, not the `1.0e-7` the claim
assumes, so for the body with `mass = 1.0e6`, `radius = 10.0` the
computed escape velocity is not `sqrt(2 * 1.0e-7 * 1.0e6 / 10.0)`. -/
theorem C9_counterexample :
    CBody.escape_velocity (CBody.new 1000000 10 ⟨0, 0, 0⟩ ⟨0, 0, 0⟩) ≠
      Rat.sqrt (2 * (1/10^7) * 1000000 / 10) := by
  rw [CBody.escape_velocity, c9_arg, c9_sqrt_code]
  rw [show (2 * (1/10^7) * 1000000 / 10 : ℚ) = 1/50 by norm_num, c9_sqrt_claim]
  norm_num

/-- Claim C9 (amended): `escape_velocity(body) =
sqrt(2 * G * body.mass / body.radius)` and is a pure function of the
body's mass and radius, but the code's constant is
`G = 6.67e-11 * SIM_SCALE = 6.67e-15`; for `mass = 1.0e6`,
`radius = 10.0` the radicand is `1.334e-9 = 667/500000000000` (so the
escape velocity is about `3.65e-5`), not `0.02`. -/
theorem C9_theorem (b : CBody) :
    CBody.escape_velocity b = Rat.sqrt (2 * G * b.mass / b.radius) ∧
    G = 667/100000000000000000 ∧
    CBody.escape_velocity (CBody.new 1000000 10 ⟨0, 0, 0⟩ ⟨0, 0, 0⟩) =
      Rat.sqrt (667/500000000000) := by
  refine ⟨?_, by norm_num [G, SIM_SCALE], by rw [CBody.escape_velocity, c9_arg]⟩
  rw [CBody.escape_velocity, CBody.standard_gravitational_parameter]
  exact congrArg Rat.sqrt (by ring)

/-- Claim C5 (counterexample): there is no epsilon guard — two bodies
initialized at the same position produce non-finite (NaN) velocity and
position after one tick: the `normalize` of the zero separation divides
zero by zero and the result propagates unchecked into the state. -/
theorem C5_counterexample :
    (StateF.update [⟨1, 1, ⟨some 0, some 0, some 0⟩, ⟨some 0, some 0, some 0⟩⟩,
        ⟨1, 1, ⟨some 0, some 0, some 0⟩, ⟨some 0, some 0, some 0⟩⟩] 1).all
      FBody.isFinite = false := by
  simp [StateF.update, updateLoopF, FBody.stepBodyF, FBody.accumulateF, FBody.updateF,
    FBody.accelContributionF, FVec3.sub, FVec3.magnitude2, FVec3.normalize,
    FVec3.magnitude, FVec3.smul, FVec3.sdiv, FVec3.add,
    FQ.sub, FQ.mul, FQ.add, FQ.div, FQ.sqrt, FQ.fin, rat_sqrt_zero,
    FBody.isFinite, FVec3.isFinite, FQ.isFinite]

/-- Claim C5 (amended): the tick has no degenerate-distance guard: for
any two bodies at the same (finite) position the pairwise contribution
is computed as a `0/0` — non-finite (NaN), not a skipped zero force —
and after one tick the bodies' velocities and positions are
non-finite. -/
theorem C5_theorem (m1 r1 m2 r2 px py pz vx1 vy1 vz1 vx2 vy2 vz2 dt : ℚ) :
    FBody.accelContributionF
        ⟨m1, r1, ⟨some px, some py, some pz⟩, ⟨some vx1, some vy1, some vz1⟩⟩
        ⟨m2, r2, ⟨some px, some py, some pz⟩, ⟨some vx2, some vy2, some vz2⟩⟩ =
      ⟨none, none, none⟩ ∧
    (StateF.update
        [⟨m1, r1, ⟨some px, some py, some pz⟩, ⟨some vx1, some vy1, some vz1⟩⟩,
          ⟨m2, r2, ⟨some px, some py, some pz⟩, ⟨some vx2, some vy2, some vz2⟩⟩] dt).all
      FBody.isFinite = false := by
  constructor
  · simp [FBody.accelContributionF, FVec3.sub, FVec3.magnitude2, FVec3.normalize,
      FVec3.magnitude, FVec3.smul, FVec3.sdiv, FQ.sub, FQ.mul, FQ.add, FQ.div, FQ.sqrt,
      FQ.fin, rat_sqrt_zero]
  · simp [StateF.update, updateLoopF, FBody.stepBodyF, FBody.accumulateF, FBody.updateF,
      FBody.accelContributionF, FVec3.sub, FVec3.magnitude2, FVec3.normalize,
      FVec3.magnitude, FVec3.smul, FVec3.sdiv, FVec3.add,
      FQ.sub, FQ.mul, FQ.add, FQ.div, FQ.sqrt, FQ.fin, rat_sqrt_zero,
      FBody.isFinite, FVec3.isFinite, FQ.isFinite]

/-- Evaluation rule for `roundF32` in the round-down (fraction strictly
below one half, including exact) case: if `2^e ≤ q < 2^(e+1)` and the
scaled significand lies in `[n, n + 1/2)`, the rounded value is
`n * 2^(e-23)`. -/
theorem roundF32_eq_down (q r : ℚ) (e n : ℤ) (hq : 0 < q)
    (hl : (2:ℚ) ^ e ≤ q) (hu : q < 2 ^ (e + 1))
    (hn : (n : ℚ) ≤ q * 2 ^ (23 - e)) (hn2 : q * 2 ^ (23 - e) < n + 1/2)
    (hr : (n : ℚ) * 2 ^ (e - 23) = r) :
    roundF32 q = r := by
  have hq0 : q ≠ 0 := hq.ne'
  have habs : |q| = q := abs_of_pos hq
  have hlog : Int.log 2 q = e := by
    have h1 : e ≤ Int.log 2 q := by
      rw [← Int.zpow_le_iff_le_log (by norm_num) hq]
      exact_mod_cast hl
    have h2 : Int.log 2 q < e + 1 := by
      rw [← Int.lt_zpow_iff_log_lt (by norm_num) hq]
      exact_mod_cast hu
    omega
  have hfl : ⌊q * 2 ^ (23 - e)⌋ = n := by
    rw [Int.floor_eq_iff]
    exact ⟨hn, by linarith⟩
  simp only [roundF32]
  rw [if_neg hq0, habs, hlog, if_neg (not_lt.mpr hq.le), hfl,
    if_pos (show q * 2 ^ (23 - e) - (n : ℚ) < 1/2 by linarith), one_mul, hr]

/-- Evaluation rule for `roundF32` in the round-up (fraction strictly
above one half) case. -/
theorem roundF32_eq_up (q r : ℚ) (e n : ℤ) (hq : 0 < q)
    (hl : (2:ℚ) ^ e ≤ q) (hu : q < 2 ^ (e + 1))
    (hn : (n : ℚ) + 1/2 < q * 2 ^ (23 - e)) (hn2 : q * 2 ^ (23 - e) < n + 1)
    (hr : ((n : ℚ) + 1) * 2 ^ (e - 23) = r) :
    roundF32 q = r := by
  have hq0 : q ≠ 0 := hq.ne'
  have habs : |q| = q := abs_of_pos hq
  have hlog : Int.log 2 q = e := by
    have h1 : e ≤ Int.log 2 q := by
      rw [← Int.zpow_le_iff_le_log (by norm_num) hq]
      exact_mod_cast hl
    have h2 : Int.log 2 q < e + 1 := by
      rw [← Int.lt_zpow_iff_log_lt (by norm_num) hq]
      exact_mod_cast hu
    omega
  have hfl : ⌊q * 2 ^ (23 - e)⌋ = n := by
    rw [Int.floor_eq_iff]
    exact ⟨by linarith, hn2⟩
  simp only [roundF32]
  rw [if_neg hq0, habs, hlog, if_neg (not_lt.mpr hq.le), hfl,
    if_neg (show ¬ q * 2 ^ (23 - e) - (n : ℚ) < 1/2 from not_lt.mpr (by linarith)),
    if_pos (show (1:ℚ)/2 < q * 2 ^ (23 - e) - (n : ℚ) by linarith)]
  push_cast
  rw [one_mul, ← hr]

theorem r32_zero : roundF32 0 = 0 := by simp [roundF32]

theorem r32_one : roundF32 1 = 1 :=
  roundF32_eq_down 1 1 0 8388608 (by norm_num) (by norm_num) (by norm_num)
    (by norm_num) (by norm_num) (by norm_num)

/-- The `f32` value of the literal `6.67e-11`. -/
theorem r32_g1 : roundF32 (667/10000000000000) = 9612483/144115188075855872 :=
  roundF32_eq_down _ _ (-34) 9612483 (by norm_num) (by norm_num) (by norm_num)
    (by norm_num) (by norm_num) (by norm_num)

/-- The `f32` value of the literal `0.0001`. -/
theorem r32_s1 : roundF32 (1/10000) = 13743895/137438953472 :=
  roundF32_eq_down _ _ (-14) 13743895 (by norm_num) (by norm_num) (by norm_num)
    (by norm_num) (by norm_num) (by norm_num)

/-- The `f32` product of the two stored constants: the rounding of
`roundF32(6.67e-11) * roundF32(0.0001)` — the `f32` value of `G`. -/
theorem r32_g32 :
    roundF32 (132112957041285/19807040628566084398385987584) =
      3937273/590295810358705651712 :=
  roundF32_eq_up _ _ (-48) 15749091 (by norm_num) (by norm_num) (by norm_num)
    (by norm_num) (by norm_num) (by norm_num)

/-- The `f32` value of `G` is on the representable grid (rounding it
again is the identity). -/
theorem r32_g32_self :
    roundF32 (3937273/590295810358705651712) = 3937273/590295810358705651712 :=
  roundF32_eq_down _ _ (-48) 15749092 (by norm_num) (by norm_num) (by norm_num)
    (by norm_num) (by norm_num) (by norm_num)

/-- The rounded product `G32 * 7000000`: the contribution magnitude `a`
of the C10 counterexample, with `2^-25 < a < 2^-24`. -/
theorem r32_a : roundF32 (430639234375/9223372036854775808) = 6571033/140737488355328 :=
  roundF32_eq_down _ _ (-25) 13142066 (by norm_num) (by norm_num) (by norm_num)
    (by norm_num) (by norm_num) (by norm_num)

/-- The contribution magnitude `a` is on the representable grid. -/
theorem r32_a_self :
    roundF32 (6571033/140737488355328) = 6571033/140737488355328 :=
  roundF32_eq_down _ _ (-25) 13142066 (by norm_num) (by norm_num) (by norm_num)
    (by norm_num) (by norm_num) (by norm_num)

/-- Absorption: `1 + a` rounds back down to `1` because `a` is below half
an ulp of `1`. -/
theorem r32_one_add_a : roundF32 (140737494926361/140737488355328) = 1 :=
  roundF32_eq_down _ _ 0 8388608 (by norm_num) (by norm_num) (by norm_num)
    (by norm_num) (by norm_num) (by norm_num)

/-- The exact sum `a + a` is representable, so it rounds to itself. -/
theorem r32_two_a : roundF32 (6571033/70368744177664) = 6571033/70368744177664 :=
  roundF32_eq_down _ _ (-24) 13142066 (by norm_num) (by norm_num) (by norm_num)
    (by norm_num) (by norm_num) (by norm_num)

/-- `1 + 2a` rounds up to the successor of `1`, because `2a` is above
half an ulp of `1`. -/
theorem r32_one_add_two_a : roundF32 (70368750748697/70368744177664) = 8388609/8388608 :=
  roundF32_eq_up _ _ 0 8388608 (by norm_num) (by norm_num) (by norm_num)
    (by norm_num) (by norm_num) (by norm_num)

/-- The `f32` value of `G`: `6.67e-15` up to two representation roundings
and one multiplication rounding. -/
theorem g32_val : G32 = 3937273/590295810358705651712 := by
  rw [G32, mul32]
  norm_num [r32_g1, r32_s1, r32_g32]

/-- The `f32` inner-loop contribution of a body of mass `7000000` at unit
distance on the x-axis: every pipeline operation except the final
`G * mass` product is exact, and the contribution is
`a = 6571033 * 2^-47`, between `2^-25` and `2^-24`. -/
theorem c10_contrib :
    accelContribution32 (⟨1, 1, ⟨0, 0, 0⟩, ⟨1, 0, 0⟩⟩ : CBody)
        (⟨7000000, 1, ⟨1, 0, 0⟩, ⟨0, 0, 0⟩⟩ : CBody) =
      ⟨6571033/140737488355328, 0, 0⟩ := by
  simp only [accelContribution32, subV32, magnitude2V32, normalizeV32, magnitudeV32,
    smulV32, sdivV32, sub32, mul32, div32, sqrt32, add32, g32_val]
  norm_num [r32_zero, r32_one, r32_g32_self, r32_a, r32_a_self, rat_sqrt_one, Vec3.mk.injEq]

/-- Folding the two contributions into the velocity one at a time: each
`1 + a` rounds back to `1` (`a` is below half an ulp of `1`), so the
velocity is unchanged. -/
theorem c10_fold :
    (accumulate32 (⟨1, 1, ⟨0, 0, 0⟩, ⟨1, 0, 0⟩⟩ : CBody)
        [⟨7000000, 1, ⟨1, 0, 0⟩, ⟨0, 0, 0⟩⟩, ⟨7000000, 1, ⟨1, 0, 0⟩, ⟨0, 0, 0⟩⟩]).velocity =
      ⟨1, 0, 0⟩ := by
  simp only [accumulate32, List.foldl_cons, List.foldl_nil, c10_contrib, addV32, add32]
  norm_num [c10_contrib, addV32, add32, r32_one_add_a, r32_zero]

/-- Accumulating the two contributions into a separate vector first:
`a + a = 2a` is exact and representable. -/
theorem c10_sum :
    netAcceleration32 (⟨1, 1, ⟨0, 0, 0⟩, ⟨1, 0, 0⟩⟩ : CBody)
        [⟨7000000, 1, ⟨1, 0, 0⟩, ⟨0, 0, 0⟩⟩, ⟨7000000, 1, ⟨1, 0, 0⟩, ⟨0, 0, 0⟩⟩] =
      ⟨6571033/70368744177664, 0, 0⟩ := by
  simp only [netAcceleration32, List.foldl_cons, List.foldl_nil, c10_contrib, addV32, add32]
  norm_num [r32_a_self, r32_two_a, r32_zero, Vec3.mk.injEq]

/-- Claim C10 (counterexample): under `f32` arithmetic the two
accumulation strategies differ.  A body with velocity `(1,0,0)` and two
neighbours of mass `7000000` at unit distance each contribute
`a = 6571033 * 2^-47` with `2^-25 < a < 2^-24`: folding into the
velocity one pair at a time absorbs each addition (`fl(1 + a) = 1`,
final velocity `(1,0,0)`), while accumulating first gives the exact,
representable `2a > 2^-24`, and `fl(1 + 2a) = 1 + 2^-23` — the two final
velocities differ by one ulp. -/
theorem C10_counterexample :
    (accumulate32 (⟨1, 1, ⟨0, 0, 0⟩, ⟨1, 0, 0⟩⟩ : CBody)
        [⟨7000000, 1, ⟨1, 0, 0⟩, ⟨0, 0, 0⟩⟩, ⟨7000000, 1, ⟨1, 0, 0⟩, ⟨0, 0, 0⟩⟩]).velocity ≠
      addV32 (⟨1, 1, ⟨0, 0, 0⟩, ⟨1, 0, 0⟩⟩ : CBody).velocity
        (netAcceleration32 (⟨1, 1, ⟨0, 0, 0⟩, ⟨1, 0, 0⟩⟩ : CBody)
          [⟨7000000, 1, ⟨1, 0, 0⟩, ⟨0, 0, 0⟩⟩, ⟨7000000, 1, ⟨1, 0, 0⟩, ⟨0, 0, 0⟩⟩]) := by
  rw [c10_fold, c10_sum]
  simp only [addV32, add32]
  norm_num [r32_one_add_two_a, r32_zero, Vec3.ext_iff]
